import Mathlib

/-!
Verification of the carfax-2020 extraction engine and session/token model.

The Python sources under `src/` are shallowly embedded: each relevant
function is translated to an executable Lean definition operating on
`String` / `List Char` (documents), `ℚ`/`ℤ` (times and durations), and
`Option`/`Except` (absent values and caught exceptions).  Regular
expressions from the source are hand-compiled to deterministic scanners;
determinism of each compilation (greedy character classes never overlap
with the following literal, so Python's backtracking never triggers) is
noted next to each scanner.  `re.IGNORECASE` is modelled by comparing
`Char.toLower` images, matching Python semantics on the ASCII documents
this scraper handles.
-/

namespace Carfax

abbrev Cs := List Char

/-- Python `str.lower` on ASCII text: map `Char.toLower`. -/
def lowerCs (cs : Cs) : Cs := cs.map Char.toLower

/-- Python `str.upper` on ASCII text: map `Char.toUpper`. -/
def upperCs (cs : Cs) : Cs := cs.map Char.toUpper

/-- Python regex `\s` / `str.strip` whitespace class (ASCII part):
space, tab, newline, carriage return, vertical tab, form feed. -/
def pySpace (c : Char) : Bool :=
  c = ' ' || c = '\t' || c = '\n' || c = '\r' || c = '\x0b' || c = '\x0c'

/-- Regex word class `\w` = `[A-Za-z0-9_]`, used for `\b` boundaries. -/
def wordChar (c : Char) : Bool := c.isAlphanum || c = '_'

/-- Character class `[\d,]`. -/
def digitComma (c : Char) : Bool := c.isDigit || c = ','

/-- Membership of a pattern as a contiguous substring (Python `in`). -/
def subCs (pat cs : Cs) : Bool := decide (pat <:+: cs)

/-- Case-insensitive substring test: Python `pat in text.lower()` with a
lowercase `pat`. -/
def subCi (pat : String) (cs : Cs) : Bool := subCs pat.data (lowerCs cs)

/-- Numeric value of a digit string (Python `int` on a string of ASCII
digits); `none` when empty or a non-digit appears, as `int` raises. -/
def parseNatCs : Cs → Option Nat
  | [] => none
  | cs => go cs 0
where
  go : Cs → Nat → Option Nat
    | [], acc => some acc
    | c :: cs, acc => if c.isDigit then go cs (acc * 10 + (c.toNat - 48)) else none

/-- Greedy character-class run `p+`: the maximal nonempty prefix of
characters satisfying `p`, with the remainder. -/
def run1 (p : Char → Bool) (cs : Cs) : Option (Cs × Cs) :=
  match cs.takeWhile p with
  | [] => none
  | r => some (r, cs.dropWhile p)

/-- Greedy `p*`: drop the maximal prefix satisfying `p`. -/
def skipRun (p : Char → Bool) (cs : Cs) : Cs := cs.dropWhile p

/-- Greedy `p+` where only the remainder matters (regex `\s+` etc.). -/
def skip1 (p : Char → Bool) (cs : Cs) : Option Cs :=
  (run1 p cs).map (fun r => r.2)

/-- Case-insensitive literal: consume `pat` (given in lowercase) from the
front of `cs`, comparing lowered characters. -/
def litCi : Cs → Cs → Option Cs
  | [], cs => some cs
  | _, [] => none
  | p :: ps, c :: cs => if c.toLower = p then litCi ps cs else none

/-- Case-sensitive literal. -/
def litCs : Cs → Cs → Option Cs
  | [], cs => some cs
  | _, [] => none
  | p :: ps, c :: cs => if c = p then litCs ps cs else none

/-- Optional case-insensitive literal `(?:pat)?`: consume it when it is
present, otherwise leave the input unchanged.  Used only where the
character after the option cannot begin `pat`, so no backtracking is
lost. -/
def optLitCi (pat : String) (cs : Cs) : Cs :=
  match litCi pat.data cs with
  | some r => r
  | none => cs

/-- Leftmost search: run the anchored matcher at every suffix, leftmost
first — the semantics of `re.search`. -/
def search (m : Cs → Option α) : Cs → Option α
  | [] => m []
  | c :: cs =>
    match m (c :: cs) with
    | some r => some r
    | none => search m cs

/-- Boolean variant of `search`. -/
def searchB (m : Cs → Option Unit) (cs : Cs) : Bool := (search m cs).isSome

/-- Words separated by `\s*` (regex `w₁\s*w₂\s*…`), anchored; words are
given in lowercase, matched case-insensitively. -/
def phraseCiAt : List String → Cs → Option Cs
  | [], cs => some cs
  | [w], cs => litCi w.data cs
  | w :: ws, cs =>
    match litCi w.data cs with
    | none => none
    | some r => phraseCiAt ws (skipRun pySpace r)

/-- Leftmost-searched phrase (regex `re.search(w₁\s*w₂…,·, IGNORECASE)`
as a Boolean). -/
def phraseCi (ws : List String) (cs : Cs) : Bool :=
  searchB (fun s => (phraseCiAt ws s).map (fun _ => ())) cs

/-- Lazy gap `a.*?b` (no DOTALL: the gap may not cross a newline): after
a match of the head, scan forward for the tail without passing a
newline.  `m` is tried at the current position before the newline test,
since a match starting at the newline itself is still allowed. -/
def scanLine (m : Cs → Option α) : Cs → Option α
  | [] => m []
  | c :: cs =>
    match m (c :: cs) with
    | some r => some r
    | none => if c = '\n' then none else scanLine m cs

/-- Python `str.split()` (split on whitespace runs, dropping empties);
`cur` accumulates the current word reversed, keeping the recursion
structural. -/
def splitWSGo (cur : Cs) : Cs → List Cs
  | [] => if cur = [] then [] else [cur.reverse]
  | c :: cs =>
    if pySpace c then
      if cur = [] then splitWSGo [] cs else cur.reverse :: splitWSGo [] cs
    else splitWSGo (c :: cur) cs

def splitWS (cs : Cs) : List Cs := splitWSGo [] cs

/-- Python `str.strip()` on ASCII text. -/
def pyStrip (cs : Cs) : Cs :=
  (((cs.dropWhile pySpace).reverse).dropWhile pySpace).reverse

/-- Value of a `(\d+)` capture (Python `int` on a nonempty digit string;
such a call cannot raise, so it is total here). -/
def digitVal (g : Cs) : Nat := g.foldl (fun a c => a * 10 + (c.toNat - 48)) 0

/-- True when the scan position is at a `\b` boundary coming from a word
character: the next character is absent or not a word character. -/
def nonWordStart : Cs → Bool
  | [] => true
  | c :: _ => !wordChar c

/-- An HTML element as far as the extractors can see it: its `class`
attribute and its `get_text` text (BeautifulSoup is external; the
extractors only consume these two strings). -/
structure Elem where
  cls : String
  text : String
deriving Repr, DecidableEq

/-- A fetched document: the raw page string handed to the extractors,
and the elements its soup exposes to the class selectors used by them. -/
structure Doc where
  html : String
  elems : List Elem
deriving Repr, DecidableEq

/-- CSS class-token selector `.tok`: `tok` is one of the
whitespace-separated class tokens. -/
def clsTok (tok : String) (e : Elem) : Bool :=
  (splitWS e.cls.data).any (fun w => w = tok.data)

/-- CSS attribute-substring selector `[class*="s"]`. -/
def clsSub (s : String) (e : Elem) : Bool := subCs s.data e.cls.data

/-!  `VehicleHistoryScraper._extract_mileage` (vehicle_history.py:744).
Patterns tried in order; a textual match whose comma-stripped value is
not in `(100, 1000000)` falls through to the next pattern, and the
original comma-formatted capture is what gets returned.  -/

/-- Character class `[:\s]`. -/
def colonSpace (c : Char) : Bool := c = ':' || pySpace c

/-- Band check from the source: strip commas, `int`, require
`100 < value < 1000000`.  `int` raises (caught by the bare `except`)
when the capture was all commas; that is the `none` branch. -/
def bandOk (g : Cs) : Bool :=
  match parseNatCs (g.filter (fun c => c ≠ ',')) with
  | some v => decide (100 < v) && decide (v < 1000000)
  | none => false

/-- Regex `([\d,]+)\s*Last\s*reported\s*odometer\s*reading`, anchored.
The `[\d,]+` run is maximal: its class is disjoint from `\s` and from
`l`, so Python's backtracking never shortens it. -/
def milP1At (cs : Cs) : Option Cs := do
  let (g, r1) ← run1 digitComma cs
  let _ ← phraseCiAt ["last", "reported", "odometer", "reading"] (skipRun pySpace r1)
  pure g

/-- Regex `Last\s*reported\s*odometer\s*reading[:\s]*([\d,]+)`, anchored. -/
def milP2At (cs : Cs) : Option Cs := do
  let r ← phraseCiAt ["last", "reported", "odometer", "reading"] cs
  let (g, _) ← run1 digitComma (skipRun colonSpace r)
  pure g

/-- Regex `odometer[:\s]*([\d,]+)`, anchored. -/
def milP3At (cs : Cs) : Option Cs := do
  let r ← litCi "odometer".data cs
  let (g, _) ← run1 digitComma (skipRun colonSpace r)
  pure g

/-- Regex `([\d,]+)\s*(?:miles|mi)\b`, anchored.  When `miles` matches
text but the boundary fails, the `mi` alternative fails its boundary on
the following `l`, so no fallback is needed in that case. -/
def milP4At (cs : Cs) : Option Cs := do
  let (g, r1) ← run1 digitComma cs
  let r2 := skipRun pySpace r1
  match litCi "miles".data r2 with
  | some r3 => if nonWordStart r3 then pure g else none
  | none =>
    match litCi "mi".data r2 with
    | some r3 => if nonWordStart r3 then pure g else none
    | none => none

/-- Regex `mileage[:\s]*([\d,]+)`, anchored. -/
def milP5At (cs : Cs) : Option Cs := do
  let r ← litCi "mileage".data cs
  let (g, _) ← run1 digitComma (skipRun colonSpace r)
  pure g

/-- The `for pattern in patterns` loop: first searched match per
pattern; band failure moves on to the next pattern. -/
def milPats : List (Cs → Option Cs) → Cs → Option Cs
  | [], _ => none
  | p :: ps, h =>
    match search p h with
    | some g => if bandOk g then some g else milPats ps h
    | none => milPats ps h

/-- The element fallback: first `([\d,]+)` run of each selected
element's text, with the same band check; band failure moves on to the
next element. -/
def milElems : List Elem → Option Cs
  | [] => none
  | e :: es =>
    match search (fun cs => (run1 digitComma cs).map (fun r => r.1)) e.text.data with
    | some g => if bandOk g then some g else milElems es
    | none => milElems es

def extractMileage (d : Doc) : Option String :=
  match milPats [milP1At, milP2At, milP3At, milP4At, milP5At] d.html.data with
  | some g => some (String.mk g)
  | none =>
    (milElems (d.elems.filter (fun e => clsSub "mileage" e || clsSub "odometer" e))).map
      String.mk

/-!  `VehicleHistoryScraper._extract_accidents` (vehicle_history.py:695). -/

/-- Character class `["\s:>]`. -/
def quoteSpaceColonGt (c : Char) : Bool := c = '"' || pySpace c || c = ':' || c = '>'

/-- Regex `(\d+)\s*accident`, anchored. -/
def dAccAt (cs : Cs) : Option Cs :=
  match run1 Char.isDigit cs with
  | none => none
  | some (g, r1) =>
    match litCi "accident".data (skipRun pySpace r1) with
    | none => none
    | some _ => some g

/-- Regex `accident[s]?["\s:>]+(\d+)`, anchored.  The optional `s` is
safe to take greedily: `s` is not in the following class. -/
def accRevAt (cs : Cs) : Option Cs :=
  match litCi "accident".data cs with
  | none => none
  | some r1 =>
    match skip1 quoteSpaceColonGt (optLitCi "s" r1) with
    | none => none
    | some r2 =>
      match run1 Char.isDigit r2 with
      | none => none
      | some (g, _) => some g

/-- The element loop of `_extract_accidents`: per element, a literal
`no accident` in the lowered text yields 0, else the first
`(\d+)\s*accident` match yields its value, else the next element. -/
def accElems : List Elem → Option Nat
  | [] => none
  | e :: es =>
    if subCi "no accident" e.text.data then some 0
    else
      match search dAccAt e.text.data with
      | some g => some (digitVal g)
      | none => accElems es

def extractAccidents (d : Doc) : Option Nat :=
  if phraseCi ["no", "accident"] d.html.data then some 0
  else
    match accElems (d.elems.filter (fun e => clsSub "accident" e)) with
    | some n => some n
    | none =>
      match search dAccAt d.html.data with
      | some g => some (digitVal g)
      | none =>
        match search accRevAt d.html.data with
        | some g => some (digitVal g)
        | none => none

/-!  `VehicleHistoryScraper._extract_owners` (vehicle_history.py:668). -/

/-- Regex `(\d+)\s*Previous\s*owners?`, anchored (the trailing optional
`s` constrains nothing). -/
def ownP1At (cs : Cs) : Option Cs := do
  let (g, r1) ← run1 Char.isDigit cs
  let r2 ← litCi "previous".data (skipRun pySpace r1)
  let _ ← litCi "owner".data (skipRun pySpace r2)
  pure g

/-- Regex `(\d+)\s*owner`, anchored. -/
def ownP2At (cs : Cs) : Option Cs := do
  let (g, r1) ← run1 Char.isDigit cs
  let _ ← litCi "owner".data (skipRun pySpace r1)
  pure g

/-- Regex `owner[s]?["\s:>]+(\d+)`, anchored. -/
def ownP3At (cs : Cs) : Option Cs := do
  let r1 ← litCi "owner".data cs
  let r2 ← skip1 quoteSpaceColonGt (optLitCi "s" r1)
  let (g, _) ← run1 Char.isDigit r2
  pure g

/-- Regex `(\d+)\s*(?:Previous\s*)?owner`, anchored; the optional group
backtracks, so the plain branch is tried when the `Previous` branch
fails. -/
def ownElemAt (cs : Cs) : Option Cs := do
  let (g, r1) ← run1 Char.isDigit cs
  let r2 := skipRun pySpace r1
  match (litCi "previous".data r2).bind (fun r3 => litCi "owner".data (skipRun pySpace r3)) with
  | some _ => pure g
  | none => (litCi "owner".data r2).map (fun _ => g)

def ownElems : List Elem → Option Nat
  | [] => none
  | e :: es =>
    match search ownElemAt e.text.data with
    | some g => some (digitVal g)
    | none => ownElems es

def extractOwners (d : Doc) : Option Nat :=
  match search ownP1At d.html.data with
  | some g => some (digitVal g)
  | none =>
    match search ownP2At d.html.data with
    | some g => some (digitVal g)
    | none =>
      match search ownP3At d.html.data with
      | some g => some (digitVal g)
      | none => ownElems (d.elems.filter (fun e => clsSub "owner" e || clsTok "ownership-history" e))

/-!  `VehicleHistoryScraper._extract_service_records` (vehicle_history.py:726). -/

/-- Regex `(\d+)\s*Service\s*history\s*records?`, anchored. -/
def svcP1At (cs : Cs) : Option Cs := do
  let (g, r1) ← run1 Char.isDigit cs
  let _ ← phraseCiAt ["service", "history", "record"] (skipRun pySpace r1)
  pure g

/-- Regex `(\d+)\s*service\s*records?`, anchored. -/
def svcP2At (cs : Cs) : Option Cs := do
  let (g, r1) ← run1 Char.isDigit cs
  let _ ← phraseCiAt ["service", "record"] (skipRun pySpace r1)
  pure g

/-- Regex `service.*?(\d+)\s*records?`, anchored at `service`; the lazy
gap may not cross a newline. -/
def svcP3At (cs : Cs) : Option Cs := do
  let r ← litCi "service".data cs
  scanLine
    (fun s => do
      let (g, r1) ← run1 Char.isDigit s
      let _ ← litCi "record".data (skipRun pySpace r1)
      pure g)
    r

def extractServiceRecords (d : Doc) : Option Nat :=
  match search svcP1At d.html.data with
  | some g => some (digitVal g)
  | none =>
    match search svcP2At d.html.data with
    | some g => some (digitVal g)
    | none =>
      match search svcP3At d.html.data with
      | some g => some (digitVal g)
      | none => none

/-!  `VehicleHistoryScraper._extract_title_status` (vehicle_history.py:781):
plain lowercase substring checks in a fixed priority order. -/

def extractTitleStatus (d : Doc) : Option String :=
  if subCs "clean title".data (lowerCs d.html.data) then some "Clean"
  else if subCs "salvage".data (lowerCs d.html.data) then some "Salvage"
  else if subCs "rebuilt".data (lowerCs d.html.data) then some "Rebuilt"
  else if subCs "flood".data (lowerCs d.html.data) then some "Flood"
  else if subCs "lemon".data (lowerCs d.html.data) then some "Lemon"
  else if subCs "junk".data (lowerCs d.html.data) then some "Junk"
  else none

/-!  `VehicleHistoryScraper._extract_year_make_model` (vehicle_history.py:611). -/

/-- Result dictionary of `_extract_year_make_model`: each key may be
absent or hold `None`, which the assembler's `.get` reads uniformly as
an absent value. -/
structure YMM where
  year : Option String := none
  make : Option String := none
  model : Option String := none
  trim : Option String := none
deriving Repr, DecidableEq

/-- The known-manufacturer list, in source order. -/
def knownMakes : List String :=
  ["Honda", "Toyota", "Ford", "Chevrolet", "Chevy", "BMW", "Mercedes",
   "Audi", "Volkswagen", "VW", "Nissan", "Hyundai", "Kia", "Mazda",
   "Subaru", "Lexus", "Acura", "Infiniti", "Jeep", "Dodge", "Ram",
   "Chrysler", "GMC", "Cadillac", "Buick", "Lincoln", "Volvo", "Porsche",
   "Tesla", "Mitsubishi", "Suzuki", "Fiat", "Alfa", "Jaguar", "Land",
   "Range", "Mini", "Smart", "Scion", "Saturn", "Pontiac", "Oldsmobile",
   "Mercury", "Hummer", "Saab", "Isuzu", "Daewoo", "Genesis", "Polestar"]

/-- Regex fragment `\d{4}`: exactly four digit characters. -/
def take4d : Cs → Option (Cs × Cs)
  | c1 :: c2 :: c3 :: c4 :: r =>
    if c1.isDigit && c2.isDigit && c3.isDigit && c4.isDigit then some ([c1, c2, c3, c4], r)
    else none
  | _ => none

/-- Regex `(\d{4})\s+([A-Za-z]+)\s+(.+)` via `re.match` (anchored at
the start) on an element's text.  Element texts come from
`get_text(strip=True)`, so they never end in whitespace; on such texts
requiring a non-space character after the second `\s+` is exact. -/
def titleMatchAt (cs : Cs) : Option (Cs × Cs × Cs) := do
  let (y, r1) ← take4d cs
  let r2 ← skip1 pySpace r1
  let (mk, r3) ← run1 Char.isAlpha r2
  let r4 ← skip1 pySpace r3
  match r4 with
  | [] => none
  | c :: _ => if c = '\n' then none else pure (y, mk, r4.takeWhile (fun x => x ≠ '\n'))

/-- Dictionary built from a title-element match: `model` is the first
whitespace-separated word of group 3, `trim` joins the remaining words
(absent when there is only one). -/
def ymmOfGroups (y mk g : Cs) : YMM :=
  let parts := splitWS g
  { year := some (String.mk y), make := some (String.mk mk),
    model := (parts.head?).map String.mk,
    trim :=
      if parts.length > 1 then some (String.intercalate " " (parts.tail.map String.mk))
      else none }

/-- The title-element loop: first selected element whose text matches,
validated against the known-makes list (case-insensitively). -/
def ymmTitleElems : List Elem → Option YMM
  | [] => none
  | e :: es =>
    match titleMatchAt e.text.data with
    | some (y, mk, g) =>
      if knownMakes.any (fun m => lowerCs m.data = lowerCs mk) then some (ymmOfGroups y mk g)
      else ymmTitleElems es
    | none => ymmTitleElems es

/-- Selector `.vehicle-title, .vehicle-header, [class*="year-make-model"],
.vhr-title, .report-title`. -/
def titleElemSel (e : Elem) : Bool :=
  clsTok "vehicle-title" e || clsTok "vehicle-header" e || clsSub "year-make-model" e ||
    clsTok "vhr-title" e || clsTok "report-title" e

/-- Regex `(\d{4})\s+MAKE\s+([A-Za-z0-9]+(?:\s+[A-Za-z0-9]+)?)` with
the make name inserted literally, IGNORECASE, anchored.  Group 2 is the
matched slice: first word, and when present the actual whitespace and
second word. -/
def makePatAt (mkLower : Cs) (cs : Cs) : Option (Cs × Cs) := do
  let (y, r1) ← take4d cs
  let r2 ← skip1 pySpace r1
  let r3 ← litCi mkLower r2
  let r4 ← skip1 pySpace r3
  let (w1, r5) ← run1 Char.isAlphanum r4
  match run1 pySpace r5 with
  | some (sp, r6) =>
    match run1 Char.isAlphanum r6 with
    | some (w2, _) => pure (y, w1 ++ sp ++ w2)
    | none => pure (y, w1)
  | none => pure (y, w1)

/-- The `for make in known_makes` loop: first make whose anchored
pattern matches somewhere in the raw document. -/
def ymmMakeScan : List String → Cs → Option YMM
  | [], _ => none
  | mk :: ms, h =>
    match search (makePatAt (lowerCs mk.data)) h with
    | some (y, g2) =>
      let parts := splitWS g2
      some { year := some (String.mk y), make := some mk,
             model := (parts.head?).map String.mk,
             trim :=
               if parts.length > 1 then
                 some (String.intercalate " " (parts.tail.map String.mk))
               else none }
    | none => ymmMakeScan ms h

/-- Shape test for `19[89]\d|20[0-2]\d`. -/
def yearShape (c1 c2 c3 c4 : Char) : Bool :=
  (c1 = '1' && c2 = '9' && (c3 = '8' || c3 = '9') && c4.isDigit) ||
    (c1 = '2' && c2 = '0' && (c3 = '0' || c3 = '1' || c3 = '2') && c4.isDigit)

/-- Regex `\b(19[89]\d|20[0-2]\d)\b` anchored at the current position
(the left boundary is checked by the caller, which tracks the previous
character). -/
def yearAt : Cs → Option Cs
  | c1 :: c2 :: c3 :: c4 :: r =>
    if yearShape c1 c2 c3 c4 && nonWordStart r then some [c1, c2, c3, c4] else none
  | _ => none

/-- Leftmost search of the bounded year pattern, tracking the previous
character for the left `\b`. -/
def yearSearchFrom (prev : Option Char) : Cs → Option Cs
  | [] => none
  | c :: t =>
    match (if prev.all (fun p => !wordChar p) then yearAt (c :: t) else none) with
    | some r => some r
    | none => yearSearchFrom (some c) t

/-- The year-element loop: per selected element, take the first bounded
year; when its value lies in 1980–2026 return it, otherwise move to the
next element. -/
def ymmYearElems : List Elem → Option YMM
  | [] => none
  | e :: es =>
    match yearSearchFrom none e.text.data with
    | some y =>
      if 1980 ≤ digitVal y && digitVal y ≤ 2026 then some { year := some (String.mk y) }
      else ymmYearElems es
    | none => ymmYearElems es

def extractYearMakeModel (d : Doc) : Option YMM :=
  match ymmTitleElems (d.elems.filter titleElemSel) with
  | some v => some v
  | none =>
    match ymmMakeScan knownMakes d.html.data with
    | some v => some v
    | none => ymmYearElems (d.elems.filter (fun e => clsSub "year" e || clsSub "vehicle" e))

/-!  `VehicleHistoryScraper._extract_additional_data` (vehicle_history.py:574). -/

/-- Regex `\$[\d,]+(?:\.\d{2})?\s*(?:CARFAX\s*Retail\s*Value)?`
(case-sensitive), anchored; the result is `match.group(0)` before the
final `strip`, so it includes any `\s*` consumed when the labelled tail
is absent. -/
def retailAt (cs : Cs) : Option Cs := do
  match cs with
  | '$' :: r1 => do
    let (g1, r2) ← run1 digitComma r1
    let (dec, r3) :=
      match r2 with
      | '.' :: a :: b :: r => if a.isDigit && b.isDigit then (['.', a, b], r) else (([] : Cs), r2)
      | _ => (([] : Cs), r2)
    let sp := r3.takeWhile pySpace
    let r4 := r3.dropWhile pySpace
    let tail :=
      match phraseCsAt ["CARFAX", "Retail", "Value"] r4 with
      | some rest => r4.take (r4.length - rest.length)
      | none => ([] : Cs)
    pure ('$' :: g1 ++ dec ++ sp ++ tail)
  | _ => none
where
  /-- Case-sensitive words separated by `\s*`. -/
  phraseCsAt : List String → Cs → Option Cs
    | [], s => some s
    | [w], s => litCs w.data s
    | w :: ws, s =>
      match litCs w.data s with
      | none => none
      | some r => phraseCsAt ws (skipRun pySpace r)

/-- Regex `Last owned in\s+([A-Za-z\s]+)` (case-sensitive), anchored.
The `\s+` is greedy; when no class character follows it, Python hands
its last whitespace character back to the class, which then matches
just that character. -/
def lastOwnedAt (cs : Cs) : Option Cs := do
  let r1 ← litCs "Last owned in".data cs
  let (sp, rst) ← run1 pySpace r1
  let cls := rst.takeWhile (fun c => c.isAlpha || pySpace c)
  match cls with
  | [] => if sp.length ≥ 2 then pure [' '] else none
  | _ => pure cls

def vehicleTypes : List String :=
  ["SEDAN", "SUV", "COUPE", "TRUCK", "VAN", "WAGON", "CONVERTIBLE", "HATCHBACK"]

def fuelTypes : List String := ["GASOLINE", "DIESEL", "ELECTRIC", "HYBRID", "FLEX FUEL"]

def driveTypes : List String :=
  ["ALL WHEEL DRIVE", "FRONT WHEEL DRIVE", "REAR WHEEL DRIVE", "4WD", "AWD", "FWD", "RWD"]

/-- The ancillary `raw_data` dictionary, in insertion order. -/
def extractAdditionalData (d : Doc) : List (String × String) :=
  let h := d.html.data
  let up := upperCs h
  let retail :=
    match search retailAt h with
    | some g0 => [("retail_value", String.mk (pyStrip g0))]
    | none => []
  let vt :=
    match vehicleTypes.find? (fun t => subCs t.data up) with
    | some t => [("vehicle_type", t)]
    | none => []
  let ft :=
    match fuelTypes.find? (fun t => subCs t.data up) with
    | some t => [("fuel_type", t)]
    | none => []
  let dt :=
    match driveTypes.find? (fun t => subCs t.data up) with
    | some t => [("drive_type", t)]
    | none => []
  let st :=
    match search lastOwnedAt h with
    | some g1 => [("last_state", String.mk (pyStrip g1))]
    | none => []
  retail ++ vt ++ ft ++ dt ++ st

/-!  `VehicleHistoryScraper._extract_report_data` (vehicle_history.py:501).

The report record, the site-error fast path, and the single
`try/except` that wraps the whole extractor sequence.  The assembler is
stated generically over extractors returning `Except String α`: an
`Except.error` models an exception raised by that extractor, which the
source catches in its one handler after having already stored the
fields produced by the extractors that ran before it.  The concrete
`extractReportData` instantiates it with the (total, never-raising)
extractors above. -/

structure VehicleReport where
  vin : String
  year : Option String := none
  make : Option String := none
  model : Option String := none
  trim : Option String := none
  owners : Option Nat := none
  accidents : Option Nat := none
  service_records : Option Nat := none
  mileage : Option String := none
  title_status : Option String := none
  rawData : List (String × String) := []
  error : Option String := none
deriving Repr, DecidableEq

/-- Error message attached on the site-level error marker
(vehicle_history.py:516). -/
def siteErrorMsg : String := "خطأ في الموقع - VIN قد يكون غير صالح"

/-- Error message format of the single `except` handler
(vehicle_history.py:569). -/
def extractionErrorMsg (e : String) : String := "خطأ في الاستخراج: " ++ e

/-- An extractor as the assembler sees it: a value, or a raised
exception. -/
abbrev Ext (α : Type) := Doc → Except String α

/-- Setting `year/make/model/trim` from the `_extract_year_make_model`
dictionary when it is not `None`. -/
def applyYMM (r : VehicleReport) : Option YMM → VehicleReport
  | none => r
  | some v => { r with year := v.year, make := v.make, model := v.model, trim := v.trim }

def extractReportDataE (fymm : Ext (Option YMM)) (fown facc fsvc : Ext (Option Nat))
    (fmil ftit : Ext (Option String)) (fraw : Ext (List (String × String)))
    (vin : String) (d : Doc) : VehicleReport :=
  let r0 : VehicleReport := { vin := vin }
  if subCi "unexpected error has occurred" d.html.data then
    { r0 with error := some siteErrorMsg }
  else
    match fymm d with
    | .error e => { r0 with error := some (extractionErrorMsg e) }
    | .ok y =>
      let r1 := applyYMM r0 y
      match fown d with
      | .error e => { r1 with error := some (extractionErrorMsg e) }
      | .ok o =>
        let r2 := { r1 with owners := o }
        match facc d with
        | .error e => { r2 with error := some (extractionErrorMsg e) }
        | .ok a =>
          let r3 := { r2 with accidents := a }
          match fsvc d with
          | .error e => { r3 with error := some (extractionErrorMsg e) }
          | .ok s =>
            let r4 := { r3 with service_records := s }
            match fmil d with
            | .error e => { r4 with error := some (extractionErrorMsg e) }
            | .ok m =>
              let r5 := { r4 with mileage := m }
              match ftit d with
              | .error e => { r5 with error := some (extractionErrorMsg e) }
              | .ok t =>
                let r6 := { r5 with title_status := t }
                match fraw d with
                | .error e => { r6 with error := some (extractionErrorMsg e) }
                | .ok w => { r6 with rawData := w }

/-- The concrete report assembly over the extractors of this module. -/
def extractReportData (vin : String) (d : Doc) : VehicleReport :=
  extractReportDataE (fun d => .ok (extractYearMakeModel d)) (fun d => .ok (extractOwners d))
    (fun d => .ok (extractAccidents d)) (fun d => .ok (extractServiceRecords d))
    (fun d => .ok (extractMileage d)) (fun d => .ok (extractTitleStatus d))
    (fun d => .ok (extractAdditionalData d)) vin d

/-!  `FullReportScraper._extract_full_report`, title-status and accident
fragments (full_report_scraper.py:509 and :552). -/

/-- Lazy-gap regex `a.*?b` as a Boolean search (the gap may not cross a
newline), both words matched case-insensitively. -/
def gapCi (a b : String) (cs : Cs) : Bool :=
  searchB
    (fun s => do
      let r ← litCi a.data s
      scanLine (fun t => (litCi b.data t).map (fun _ => ())) r)
    cs

/-- Regex `No\s*(?:Issues\s*)?(?:Problem|Reported)` as a Boolean
search; the optional group backtracks, so both branches are tried. -/
def noProblemReported (cs : Cs) : Bool :=
  searchB
    (fun s => do
      let r ← litCi "no".data s
      let r1 := skipRun pySpace r
      let tailAt := fun (t : Cs) =>
        match litCi "problem".data t with
        | some _ => some ()
        | none => (litCi "reported".data t).map (fun _ => ())
      match (litCi "issues".data r1).bind (fun r2 => tailAt (skipRun pySpace r2)) with
      | some _ => some ()
      | none => tailAt r1)
    cs

/-- Title-status classification of the full-report variant
(full_report_scraper.py:552-567). -/
def fullTitleStatus (html : String) : String :=
  if phraseCi ["guaranteed", "no", "problem"] html.data then "Clean"
  else if gapCi "title" "clean" html.data then "Clean"
  else if gapCi "salvage" "title" html.data || gapCi "title" "salvage" html.data then "Salvage"
  else if gapCi "rebuilt" "title" html.data || gapCi "title" "rebuilt" html.data then "Rebuilt"
  else if noProblemReported html.data then "Clean"
  else "Unknown"

/-- Regex `No\s*accidents?\s*(?:or\s*damage\s*)?reported`, anchored;
the optional group backtracks. -/
def fullNoAccAt (cs : Cs) : Option Unit := do
  let r1 ← litCi "no".data cs
  let r2 ← litCi "accident".data (skipRun pySpace r1)
  let r3 := skipRun pySpace (optLitCi "s" r2)
  match (litCi "or".data r3).bind
      (fun s1 => (litCi "damage".data (skipRun pySpace s1)).map (fun s2 => skipRun pySpace s2)) with
  | some s3 =>
    match litCi "reported".data s3 with
    | some _ => some ()
    | none => (litCi "reported".data r3).map (fun _ => ())
  | none => (litCi "reported".data r3).map (fun _ => ())

/-- Regex `(\d+)\s*accidents?\s*reported`, anchored. -/
def fullNAccAt (cs : Cs) : Option Cs := do
  let (g, r1) ← run1 Char.isDigit cs
  let r2 ← litCi "accident".data (skipRun pySpace r1)
  let _ ← litCi "reported".data (skipRun pySpace (optLitCi "s" r2))
  pure g

/-- Accident count of the full-report variant
(full_report_scraper.py:509-514): `accidents_reported` stays absent when
neither pattern matches. -/
def fullAccidents (html : String) : Option Nat :=
  if searchB fullNoAccAt html.data then some 0
  else
    match search fullNAccAt html.data with
    | some g => some (digitVal g)
    | none => none

/-!  VIN validation: `VehicleHistoryScraper._validate_vin`
(vehicle_history.py:437) and `CarfaxAPIScraper._validate_vin`
(api_scraper.py:230) are line-for-line the same check, embedded once
here: reject falsy input, strip and uppercase, require length 17 and
none of `I`, `O`, `Q`. -/

/-- The stripped, uppercased form `vin.strip().upper()`. -/
def vinNorm (vin : String) : Cs := (pyStrip vin.data).map Char.toUpper

def validateVin (vin : String) : Bool :=
  if vin = "" then false
  else if (vinNorm vin).length ≠ 17 then false
  else if (vinNorm vin).any (fun c => c = 'I') || (vinNorm vin).any (fun c => c = 'O') ||
      (vinNorm vin).any (fun c => c = 'Q') then false
  else true

/-!  `src/auth/tokens.py`: `TokenData` and `TokenManager`.

Wall-clock instants (`time.time()` results) are embedded as rationals;
`expires_in` is the integer from the token payload.  `created_at` may be
`None` in Python before `__post_init__` runs, hence the `Option`; the
constructor path (`mkTokenData`) performs `__post_init__`, filling it
with the current time. -/

structure TokenData where
  access_token : String
  refresh_token : String
  id_token : String
  expires_in : Int
  token_type : String := "Bearer"
  scope : String := "openid profile email offline_access"
  created_at : Option ℚ := none
deriving Repr, DecidableEq

/-- Constructor followed by `__post_init__` (tokens.py:30-32): a missing
`created_at` becomes the current time. -/
def mkTokenData (access refresh id : String) (expiresIn : Int) (tokenType scope : String)
    (createdAt : Option ℚ) (now : ℚ) : TokenData :=
  { access_token := access, refresh_token := refresh, id_token := id,
    expires_in := expiresIn, token_type := tokenType, scope := scope,
    created_at := some (createdAt.getD now) }

/-- `TokenData.is_expired` (tokens.py:34-41): missing `created_at` means
expired; otherwise expired iff the elapsed time has reached the nominal
lifetime minus the 300-second safety margin. -/
def TokenData.isExpired (t : TokenData) (now : ℚ) : Bool :=
  match t.created_at with
  | none => true
  | some c => decide (now - c ≥ (t.expires_in : ℚ) - 300)

/-- `TokenData.time_remaining` (tokens.py:43-50). -/
def TokenData.timeRemaining (t : TokenData) (now : ℚ) : Int :=
  match t.created_at with
  | none => 0
  | some c => max 0 ⌊(t.expires_in : ℚ) - (now - c)⌋

/-- The JSON object written by `TokenData.to_dict` / read by
`from_dict`: each key possibly absent (`.get` default applies) and
`created_at` possibly `null`. -/
structure TokenDict where
  access_token : Option String := none
  refresh_token : Option String := none
  id_token : Option String := none
  expires_in : Option Int := none
  token_type : Option String := none
  scope : Option String := none
  created_at : Option ℚ := none
deriving Repr, DecidableEq

/-- `TokenData.to_dict` (tokens.py:52-62): all seven keys present
(`created_at` as stored, possibly `None`). -/
def TokenData.toDict (t : TokenData) : TokenDict :=
  { access_token := some t.access_token, refresh_token := some t.refresh_token,
    id_token := some t.id_token, expires_in := some t.expires_in,
    token_type := some t.token_type, scope := some t.scope,
    created_at := t.created_at }

/-- `TokenData.from_dict` (tokens.py:64-75): `.get` defaults, then the
constructor runs `__post_init__` at the current time. -/
def TokenData.fromDict (d : TokenDict) (now : ℚ) : TokenData :=
  mkTokenData (d.access_token.getD "") (d.refresh_token.getD "") (d.id_token.getD "")
    (d.expires_in.getD 86400) (d.token_type.getD "Bearer")
    (d.scope.getD "openid profile email offline_access") d.created_at now

/-- `TokenManager` state: the loaded token data, if any (file-path
plumbing is external I/O and not part of the state the claims touch). -/
structure TokenManager where
  tokenData : Option TokenData := none
deriving Repr, DecidableEq

/-- `TokenManager.access_token` (tokens.py:161-166): the stored string
only when data is loaded and not expired. -/
def TokenManager.accessToken (m : TokenManager) (now : ℚ) : Option String :=
  match m.tokenData with
  | some t => if t.isExpired now then none else some t.access_token
  | none => none

/-- `TokenManager.is_valid` (tokens.py:175-178). -/
def TokenManager.isValid (m : TokenManager) (now : ℚ) : Bool :=
  match m.tokenData with
  | some t => !t.isExpired now
  | none => false

/-- `TokenManager.get_auth_header` (tokens.py:180-192): Python's
`if self.access_token:` is falsy both for `None` and for the empty
string. -/
def TokenManager.getAuthHeader (m : TokenManager) (now : ℚ) : List (String × String) :=
  match m.accessToken now with
  | some s =>
    if s = "" then []
    else [("Authorization", "Bearer " ++ s), ("Content-Type", "application/json")]
  | none => []

/-!  Support lemmas about the scanning primitives. -/

theorem charToNat_inj {a b : Char} (h : a.toNat = b.toNat) : a = b := by
  apply Char.eq_of_val_eq
  apply UInt32.eq_of_toBitVec_eq
  exact BitVec.eq_of_toNat_eq h

theorem toLower_toNat (c : Char) :
    c.toLower.toNat = if 65 ≤ c.toNat ∧ c.toNat ≤ 90 then c.toNat + 32 else c.toNat := by
  unfold Char.toLower
  split
  case isTrue h =>
    rw [if_pos ⟨h.1, h.2⟩]
    unfold Char.ofNat
    rw [dif_pos (Or.inl (by omega))]
    simp [Char.ofNatAux, Char.toNat, UInt32.toNat]
  case isFalse h => rw [if_neg h]

/-- A character whose lowering is not a lowercase letter was already that
character. -/
theorem toLower_eq_nonletter {c x : Char} (h : c.toLower = x)
    (hx : ¬(97 ≤ x.toNat ∧ x.toNat ≤ 122)) : c = x := by
  have ht := toLower_toNat c
  rw [h] at ht
  split at ht
  case isTrue hr => exact absurd ⟨by omega, by omega⟩ hx
  case isFalse hr => exact charToNat_inj ht.symm

/-- A character lowering to a lowercase letter is not whitespace. -/
theorem not_pySpace_of_toLower_letter {c x : Char} (h : c.toLower = x)
    (h1 : 97 ≤ x.toNat) (h2 : x.toNat ≤ 122) : pySpace c = false := by
  have ht := toLower_toNat c
  rw [h] at ht
  have hb : 65 ≤ c.toNat ∧ c.toNat ≤ 122 := by
    split at ht <;> omega
  have hne : ∀ d : Char, d.toNat < 33 → c ≠ d := by
    intro d hd he
    rw [he] at hb
    omega
  simp only [pySpace, Bool.or_eq_false_iff, decide_eq_false_iff_not]
  refine ⟨⟨⟨⟨⟨?_, ?_⟩, ?_⟩, ?_⟩, ?_⟩, ?_⟩ <;> exact hne _ (by decide)

theorem subCs_iff {pat cs : Cs} : subCs pat cs = true ↔ pat <:+: cs := by
  simp [subCs]

theorem pre_suf_sub {a b c : Cs} (h1 : a <+: b) (h2 : b <:+ c) : a <:+: c := by
  obtain ⟨t, rfl⟩ := h1
  obtain ⟨s, rfl⟩ := h2
  exact ⟨s, t, by simp⟩

/-- `litCi` succeeds on exactly a segment lowering to the pattern. -/
theorem litCi_cover : ∀ {m pat rest : Cs}, lowerCs m = pat → litCi pat (m ++ rest) = some rest := by
  intro m
  induction m with
  | nil =>
    intro pat rest h
    cases h
    simp [litCi, lowerCs]
  | cons c m ih =>
    intro pat rest h
    cases h
    simpa [litCi, lowerCs] using ih rfl

/-- Successful `litCi` decomposes its input: a consumed segment lowering
to the pattern, followed by the returned remainder. -/
theorem litCi_split : ∀ {pat cs r : Cs}, litCi pat cs = some r →
    ∃ m, cs = m ++ r ∧ lowerCs m = pat := by
  intro pat
  induction pat with
  | nil =>
    intro cs r h
    simp only [litCi] at h
    cases h
    exact ⟨[], rfl, rfl⟩
  | cons p ps ih =>
    intro cs r h
    match cs with
    | [] => exact absurd h (by simp [litCi])
    | c :: cs =>
      simp only [litCi] at h
      split at h
      case isTrue he =>
        obtain ⟨m, rfl, hm⟩ := ih h
        refine ⟨c :: m, rfl, ?_⟩
        simp only [lowerCs, List.map_cons]
        simp only [lowerCs] at hm
        rw [he, hm]
      case isFalse => exact absurd h (by simp)

theorem litCi_suffix {pat cs r : Cs} (h : litCi pat cs = some r) : r <:+ cs := by
  obtain ⟨m, rfl, -⟩ := litCi_split h
  exact ⟨m, rfl⟩

theorem skipRun_suffix (p : Char → Bool) (cs : Cs) : skipRun p cs <:+ cs :=
  List.dropWhile_suffix p

theorem run1_some {p : Char → Bool} {cs : Cs} {a b : Cs} (h : run1 p cs = some (a, b)) :
    a = cs.takeWhile p ∧ b = cs.dropWhile p ∧ a ≠ [] := by
  unfold run1 at h
  rcases htw : cs.takeWhile p with - | ⟨c, t⟩
  · rw [htw] at h
    exact absurd h (by simp)
  · rw [htw] at h
    replace h : some (c :: t, cs.dropWhile p) = some (a, b) := h
    cases h
    exact ⟨rfl, rfl, by simp⟩

theorem run1_suffix {p : Char → Bool} {cs a b : Cs} (h : run1 p cs = some (a, b)) : b <:+ cs := by
  obtain ⟨-, rfl, -⟩ := run1_some h
  exact List.dropWhile_suffix p

theorem skip1_suffix {p : Char → Bool} {cs r : Cs} (h : skip1 p cs = some r) : r <:+ cs := by
  unfold skip1 at h
  match hr : run1 p cs with
  | none => rw [hr] at h; exact absurd h (by simp)
  | some (a, b) =>
    rw [hr] at h
    cases h
    exact run1_suffix hr

/-- A successful leftmost search happened at some suffix. -/
theorem search_to_suffix {α : Type} {m : Cs → Option α} :
    ∀ {cs : Cs} {a : α}, search m cs = some a → ∃ s, s <:+ cs ∧ m s = some a := by
  intro cs
  induction cs with
  | nil =>
    intro a h
    exact ⟨[], ⟨[], rfl⟩, h⟩
  | cons c cs ih =>
    intro a h
    simp only [search] at h
    split at h
    case h_1 v hv => cases h; exact ⟨c :: cs, ⟨[], rfl⟩, hv⟩
    case h_2 =>
      obtain ⟨s, hs, hm⟩ := ih h
      exact ⟨s, hs.trans ⟨[c], rfl⟩, hm⟩

/-- A match at any suffix makes the leftmost search succeed. -/
theorem search_isSome_of {α : Type} {m : Cs → Option α} {s cs : Cs} {a : α}
    (hs : s <:+ cs) (h : m s = some a) : (search m cs).isSome = true := by
  obtain ⟨t, rfl⟩ := hs
  induction t with
  | nil =>
    match s with
    | [] => simp [search, h]
    | c :: s => simp only [List.nil_append, search, h]; rfl
  | cons c t ih =>
    simp only [List.cons_append, search]
    split
    · rfl
    · exact ih

/-- Words rendered with single spaces, as they occur in a document. -/
def wordsJoin : List String → Cs
  | [] => []
  | [w] => w.data
  | w :: ws => w.data ++ ' ' :: wordsJoin ws

/-- Side condition for the occurrence lemma: nonempty words made of
lowercase letters. -/
def wsOk (ws : List String) : Prop :=
  ∀ w ∈ ws, w.data ≠ [] ∧ ∀ c ∈ w.data, 97 ≤ c.toNat ∧ c.toNat ≤ 122

instance : DecidablePred wsOk := by
  intro ws
  unfold wsOk
  infer_instance

/-- If the single-spaced rendering of the phrase occurs at a position
(case-insensitively), the `\s*`-separated phrase matcher succeeds
there. -/
theorem phraseCiAt_cover : ∀ (ws : List String), wsOk ws →
    ∀ {m : Cs} (rest : Cs), lowerCs m = wordsJoin ws → ∃ r, phraseCiAt ws (m ++ rest) = some r := by
  intro ws
  induction ws with
  | nil => exact fun _ _ _ _ => ⟨_, rfl⟩
  | cons w ws ih =>
    intro hok m rest hm
    match ws with
    | [] =>
      exact ⟨rest, litCi_cover hm⟩
    | w' :: ws' =>
      rw [show wordsJoin (w :: w' :: ws') = w.data ++ ' ' :: wordsJoin (w' :: ws') from rfl] at hm
      obtain ⟨m₁, m₂, rfl, hm₁, hm₂⟩ := List.map_eq_append_iff.mp hm
      rcases m₂ with - | ⟨c, m₃⟩
      · exact absurd hm₂ (by simp [lowerCs])
      simp only [lowerCs, List.map_cons, List.cons.injEq] at hm₂
      obtain ⟨hc, hm₃⟩ := hm₂
      have hcsp : c = ' ' := toLower_eq_nonletter hc (by decide)
      have hw' : w'.data ≠ [] := (hok w' (by simp)).1
      rcases hw'd : w'.data with - | ⟨hcw, tlw⟩
      · exact absurd hw'd hw'
      obtain ⟨X, hjoin⟩ : ∃ X, wordsJoin (w' :: ws') = hcw :: (tlw ++ X) := by
        match ws' with
        | [] => exact ⟨[], by simp [wordsJoin, hw'd]⟩
        | x :: xs => exact ⟨' ' :: wordsJoin (x :: xs), by simp [wordsJoin, hw'd]⟩
      rw [hjoin] at hm₃
      rcases m₃ with - | ⟨c', m₄⟩
      · exact absurd hm₃ (by simp)
      simp only [List.map_cons, List.cons.injEq] at hm₃
      obtain ⟨hc', hm₄⟩ := hm₃
      have hcwl : 97 ≤ hcw.toNat ∧ hcw.toNat ≤ 122 :=
        (hok w' (by simp)).2 hcw (by rw [hw'd]; simp)
      have hnsp : pySpace c' = false := not_pySpace_of_toLower_letter hc' hcwl.1 hcwl.2
      have hstep : phraseCiAt (w :: w' :: ws') ((m₁ ++ c :: c' :: m₄) ++ rest) =
          phraseCiAt (w' :: ws') (skipRun pySpace (c :: (c' :: (m₄ ++ rest)))) := by
        show (match litCi w.data ((m₁ ++ c :: c' :: m₄) ++ rest) with
          | none => none
          | some r => phraseCiAt (w' :: ws') (skipRun pySpace r)) = _
        rw [show (m₁ ++ c :: c' :: m₄) ++ rest = m₁ ++ (c :: (c' :: (m₄ ++ rest))) by simp,
          litCi_cover hm₁]
      have hskip : skipRun pySpace (c :: (c' :: (m₄ ++ rest))) = c' :: (m₄ ++ rest) := by
        subst hcsp
        show List.dropWhile pySpace _ = _
        rw [List.dropWhile_cons_of_pos (show pySpace ' ' = true by decide)]
        rw [List.dropWhile_cons_of_neg (show ¬ pySpace c' = true by simp [hnsp])]
      have hm₃' : lowerCs (c' :: m₄) = wordsJoin (w' :: ws') := by
        rw [hjoin]
        simp only [lowerCs, List.map_cons]
        rw [hc', hm₄]
      obtain ⟨r, hr⟩ := ih (fun x hx => hok x (List.mem_cons_of_mem w hx)) rest hm₃'
      exact ⟨r, by rw [hstep, hskip]; exact hr⟩

theorem sub_trans_suf {a b c : Cs} (h1 : a <:+: b) (h2 : b <:+ c) : a <:+: c := by
  obtain ⟨s, t, rfl⟩ := h1
  obtain ⟨u, rfl⟩ := h2
  exact ⟨u ++ s, t, by simp⟩

theorem lowerCs_suffix {s cs : Cs} (h : s <:+ cs) : lowerCs s <:+ lowerCs cs := h.map _

/-- Each word of a successful phrase match occurs (case-insensitively)
in the scanned text. -/
theorem phraseCiAt_word_sub :
    ∀ (ws : List String) {cs r : Cs}, phraseCiAt ws cs = some r →
      ∀ w ∈ ws, w.data <:+: lowerCs cs := by
  intro ws
  induction ws with
  | nil => intro cs r _ w hw; exact absurd hw (by simp)
  | cons w₀ ws ih =>
    intro cs r h w hw
    match ws with
    | [] =>
      obtain rfl : w = w₀ := by simpa using hw
      obtain ⟨m, rfl, hm⟩ := litCi_split h
      refine ⟨[], lowerCs r, ?_⟩
      simp only [lowerCs, List.map_append, List.nil_append]
      simp only [lowerCs] at hm
      rw [hm]
    | w' :: ws' =>
      simp only [phraseCiAt] at h
      match hl : litCi w₀.data cs with
      | none => rw [hl] at h; exact absurd h (by simp)
      | some r₁ =>
        rw [hl] at h
        simp only [List.mem_cons] at hw
        rcases hw with rfl | hw
        · obtain ⟨m, rfl, hm⟩ := litCi_split hl
          refine ⟨[], lowerCs r₁, ?_⟩
          simp only [lowerCs, List.map_append, List.nil_append]
          simp only [lowerCs] at hm
          rw [hm]
        · have hsub := ih h w (by simpa using hw)
          exact sub_trans_suf hsub
            (lowerCs_suffix ((skipRun_suffix pySpace r₁).trans (litCi_suffix hl)))

/-- An occurrence of the single-spaced phrase makes the searched phrase
matcher succeed. -/
theorem phraseCi_of_sub (ws : List String) (hok : wsOk ws) {html : Cs}
    (h : wordsJoin ws <:+: lowerCs html) : phraseCi ws html = true := by
  obtain ⟨l, r, hl⟩ := h
  have hl' : lowerCs html = l ++ (wordsJoin ws ++ r) := by rw [← hl]; simp
  obtain ⟨a, b, rfl, -, hb⟩ := List.map_eq_append_iff.mp hl'
  obtain ⟨m, b₂, rfl, hm, -⟩ := List.map_eq_append_iff.mp hb
  obtain ⟨r', hr'⟩ := phraseCiAt_cover ws hok b₂ hm
  unfold phraseCi searchB
  exact search_isSome_of (s := m ++ b₂) ⟨a, rfl⟩
    (show Option.map (fun _ => ()) (phraseCiAt ws (m ++ b₂)) = some () by rw [hr']; rfl)

/-- A searched phrase match found in a document means each of its words
occurs in the lowered document. -/
theorem phraseCi_to_word_sub {ws : List String} {html : Cs} (h : phraseCi ws html = true) :
    ∀ w ∈ ws, w.data <:+: lowerCs html := by
  intro w hw
  unfold phraseCi searchB at h
  rw [Option.isSome_iff_exists] at h
  obtain ⟨u, hu⟩ := h
  obtain ⟨s, hs, hm⟩ := search_to_suffix hu
  match hp : phraseCiAt ws s with
  | none => rw [hp] at hm; exact absurd hm (by simp)
  | some r => exact sub_trans_suf (phraseCiAt_word_sub ws hp w hw) (lowerCs_suffix hs)

/-- Lowering a digit changes nothing. -/
theorem toLower_digit {c : Char} (h : c.isDigit = true) : c.toLower = c := by
  have hb : 48 ≤ c.toNat ∧ c.toNat ≤ 57 := by
    simp only [Char.isDigit, Bool.and_eq_true, decide_eq_true_eq] at h
    exact ⟨h.1, h.2⟩
  have ht := toLower_toNat c
  rw [if_neg (by omega)] at ht
  exact charToNat_inj ht

theorem lowerCs_digits {ds : Cs} (h : ∀ c ∈ ds, c.isDigit = true) : lowerCs ds = ds := by
  induction ds with
  | nil => rfl
  | cons c cs ih =>
    simp only [lowerCs, List.map_cons]
    rw [toLower_digit (h c (by simp))]
    rw [show List.map Char.toLower cs = lowerCs cs from rfl,
      ih (fun a ha => h a (by simp [ha]))]

/-- A pattern starting with a non-digit that occurs in digits followed
by a tail must occur in the tail. -/
theorem sub_of_digits_append {p : Char} {pat : Cs} (hp : p.isDigit = false) :
    ∀ (ds fixedL : Cs), (∀ c ∈ ds, c.isDigit = true) →
      (p :: pat) <:+: (ds ++ fixedL) → (p :: pat) <:+: fixedL := by
  intro ds
  induction ds with
  | nil => exact fun fixedL _ h => by simpa using h
  | cons d ds ih =>
    intro fixedL hd h
    have hdd : d.isDigit = true := hd d (by simp)
    rw [List.cons_append, List.infix_cons_iff] at h
    rcases h with h | h
    · rw [List.cons_prefix_cons] at h
      obtain ⟨rfl, -⟩ := h
      rw [hp] at hdd
      exact absurd hdd (by simp)
    · exact ih fixedL (fun c hc => hd c (by simp [hc])) h

/-- The leading digit run of `digits ++ tail` (tail not starting with a
digit) is exactly the digits. -/
theorem takeWhile_digits {ds : Cs} (hd : ∀ c ∈ ds, c.isDigit = true) :
    ∀ {fixedL : Cs}, (∀ c, fixedL.head? = some c → c.isDigit = false) →
      (ds ++ fixedL).takeWhile Char.isDigit = ds ∧
        (ds ++ fixedL).dropWhile Char.isDigit = fixedL := by
  induction ds with
  | nil =>
    intro fixedL hf
    match fixedL with
    | [] => exact ⟨rfl, rfl⟩
    | c :: t =>
      constructor
      · simp [List.takeWhile_cons, hf c rfl]
      · simp [List.dropWhile_cons, hf c rfl]
  | cons d ds ih =>
    intro fixedL hf
    have hdd : d.isDigit = true := hd d (by simp)
    have := ih (fun a ha => hd a (by simp [ha])) hf
    constructor
    · simp [List.takeWhile_cons, hdd, this.1]
    · simp [List.dropWhile_cons, hdd, this.2]

/-- A case-insensitive literal matched at a suffix of a text occurs in
the lowered text. -/
theorem litCi_sub_of_suffix {pat s cs r : Cs} (hs : s <:+ cs) (h : litCi pat s = some r) :
    pat <:+: lowerCs cs := by
  obtain ⟨m, rfl, hm⟩ := litCi_split h
  refine sub_trans_suf ?_ (lowerCs_suffix hs)
  refine ⟨[], lowerCs r, ?_⟩
  simp only [lowerCs, List.map_append, List.nil_append]
  simp only [lowerCs] at hm
  rw [hm]

theorem dAccAt_sub {s g : Cs} (h : dAccAt s = some g) : "accident".data <:+: lowerCs s := by
  unfold dAccAt at h
  split at h
  · exact absurd h (by simp)
  case h_2 a r1 hr =>
    split at h
    · exact absurd h (by simp)
    case h_2 r2 hc =>
      have hsuf : skipRun pySpace r1 <:+ s := (skipRun_suffix pySpace r1).trans (run1_suffix hr)
      exact sub_trans_suf (litCi_sub_of_suffix (List.suffix_refl _) hc) (lowerCs_suffix hsuf)

theorem accRevAt_sub {s g : Cs} (h : accRevAt s = some g) : "accident".data <:+: lowerCs s := by
  unfold accRevAt at h
  split at h
  · exact absurd h (by simp)
  case h_2 r1 hc => exact litCi_sub_of_suffix (List.suffix_refl _) hc

/-- With no occurrence of `accident` anywhere (case-insensitively) and
no elements, the accident extractor finds nothing. -/
theorem extractAccidents_none {d : Doc} (hacc : ¬ ("accident".data <:+: lowerCs d.html.data))
    (he : d.elems = []) : extractAccidents d = none := by
  have h1 : phraseCi ["no", "accident"] d.html.data = false := by
    match hpc : phraseCi ["no", "accident"] d.html.data with
    | false => rfl
    | true => exact absurd (phraseCi_to_word_sub hpc "accident" (by simp)) hacc
  have h2 : search dAccAt d.html.data = none := by
    match hs : search dAccAt d.html.data with
    | none => rfl
    | some g =>
      obtain ⟨s, hsf, hm⟩ := search_to_suffix hs
      exact absurd (sub_trans_suf (dAccAt_sub hm) (lowerCs_suffix hsf)) hacc
  have h3 : search accRevAt d.html.data = none := by
    match hs : search accRevAt d.html.data with
    | none => rfl
    | some g =>
      obtain ⟨s, hsf, hm⟩ := search_to_suffix hs
      exact absurd (sub_trans_suf (accRevAt_sub hm) (lowerCs_suffix hsf)) hacc
  unfold extractAccidents
  rw [h1, he, h2, h3]
  rfl

theorem milPats_band :
    ∀ (ps : List (Cs → Option Cs)) (h : Cs) {g : Cs}, milPats ps h = some g → bandOk g = true := by
  intro ps
  induction ps with
  | nil => intro h g hg; exact absurd hg (by simp [milPats])
  | cons p ps ih =>
    intro h g hg
    unfold milPats at hg
    match hs : search p h with
    | none => rw [hs] at hg; exact ih h hg
    | some g' =>
      rw [hs] at hg
      replace hg : (if bandOk g' = true then some g' else milPats ps h) = some g := hg
      match hb : bandOk g' with
      | true => rw [hb, if_pos rfl] at hg; cases hg; exact hb
      | false => rw [hb] at hg; rw [if_neg (by simp)] at hg; exact ih h hg

theorem milElems_band :
    ∀ (es : List Elem) {g : Cs}, milElems es = some g → bandOk g = true := by
  intro es
  induction es with
  | nil => intro g hg; exact absurd hg (by simp [milElems])
  | cons e es ih =>
    intro g hg
    unfold milElems at hg
    match hs : search (fun cs => (run1 digitComma cs).map (fun r => r.1)) e.text.data with
    | none => rw [hs] at hg; exact ih hg
    | some g' =>
      rw [hs] at hg
      replace hg : (if bandOk g' = true then some g' else milElems es) = some g := hg
      match hb : bandOk g' with
      | true => rw [hb, if_pos rfl] at hg; cases hg; exact hb
      | false => rw [hb] at hg; rw [if_neg (by simp)] at hg; exact ih hg

/-- Whatever the mileage extractor returns passed the band check. -/
theorem extractMileage_band {d : Doc} {s : String} (h : extractMileage d = some s) :
    bandOk s.data = true := by
  unfold extractMileage at h
  match hm : milPats [milP1At, milP2At, milP3At, milP4At, milP5At] d.html.data with
  | some g =>
    rw [hm] at h
    cases h
    exact milPats_band _ _ hm
  | none =>
    rw [hm] at h
    match he : milElems (d.elems.filter (fun e => clsSub "mileage" e || clsSub "odometer" e)) with
    | some g =>
      rw [he] at h
      cases h
      exact milElems_band _ he
    | none => rw [he] at h; exact absurd h (by simp)

theorem bandOk_val {g : Cs} (h : bandOk g = true) :
    ∃ v, parseNatCs (g.filter (fun c => c ≠ ',')) = some v ∧ 100 < v ∧ v < 1000000 := by
  unfold bandOk at h
  match hp : parseNatCs (g.filter (fun c => c ≠ ',')) with
  | none => rw [hp] at h; exact absurd h (by simp)
  | some v =>
    rw [hp] at h
    simp only [Bool.and_eq_true, decide_eq_true_eq] at h
    exact ⟨v, rfl, h.1, h.2⟩

/-- A digit string followed by a fixed accident phrase extracts its
numeric value: `<N> accident…` yields `N`. -/
theorem extractAccidents_digits {ds : Cs} (hne : ds ≠ []) (hd : ∀ c ∈ ds, c.isDigit = true)
    (fixed : String) (hnn : ¬ ("no".data <:+: lowerCs fixed.data))
    (hfst : ∀ c, fixed.data.head? = some c → c.isDigit = false)
    (hacc : (litCi "accident".data (skipRun pySpace fixed.data)).isSome = true) :
    extractAccidents { html := String.mk (ds ++ fixed.data), elems := [] } =
      some (digitVal ds) := by
  have hdata : (Doc.html { html := String.mk (ds ++ fixed.data), elems := [] }).data
      = ds ++ fixed.data := rfl
  have h1 : phraseCi ["no", "accident"] (ds ++ fixed.data) = false := by
    match hpc : phraseCi ["no", "accident"] (ds ++ fixed.data) with
    | false => rfl
    | true =>
      have hsub := phraseCi_to_word_sub hpc "no" (by simp)
      rw [show lowerCs (ds ++ fixed.data) = ds ++ lowerCs fixed.data by
        simp only [lowerCs, List.map_append]
        rw [show List.map Char.toLower ds = ds from lowerCs_digits hd]] at hsub
      exact absurd (sub_of_digits_append (by decide) ds (lowerCs fixed.data) hd hsub) hnn
  have hdacc : dAccAt (ds ++ fixed.data) = some ds := by
    have htw := takeWhile_digits hd hfst
    have hrun : run1 Char.isDigit (ds ++ fixed.data) = some (ds, fixed.data) := by
      unfold run1
      rw [htw.1, htw.2]
      match ds, hne with
      | c :: t, _ => rfl
    rw [Option.isSome_iff_exists] at hacc
    obtain ⟨r, hr⟩ := hacc
    unfold dAccAt
    rw [hrun]
    show (match litCi "accident".data (skipRun pySpace fixed.data) with
      | none => none
      | some _ => some ds) = some ds
    rw [hr]
  have hsearch : search dAccAt (ds ++ fixed.data) = some ds := by
    match ds, hne, hd, hdacc with
    | c :: t, _, hd, hdacc =>
      rw [List.cons_append]
      unfold search
      rw [List.cons_append] at hdacc
      rw [hdacc]
  unfold extractAccidents
  rw [hdata, h1, hsearch]
  rfl

/-!  Claim theorems. -/

/-- Sample token used by the closed witnesses: created at 0, one-hour
lifetime, access string `a`. -/
def tokWith (a : String) : TokenData :=
  { access_token := a, refresh_token := "r", id_token := "i", expires_in := 3600,
    created_at := some 0 }

/-- Claim C2: a token with numeric `created_at` is valid (not expired)
iff `now - created_at < expires_in - 300` seconds; in particular with
`expires_in = 3600`, a query 3301 s after creation is invalid and one
3299 s after creation is valid, also as seen through
`TokenManager.is_valid`. -/
theorem C2_token_validity :
    (∀ (t : TokenData) (c now : ℚ), t.created_at = some c →
      (t.isExpired now = false ↔ now - c < (t.expires_in : ℚ) - 300)) ∧
    (∀ (t : TokenData) (now : ℚ),
      TokenManager.isValid { tokenData := some t } now = !t.isExpired now) ∧
    (∀ (t : TokenData) (t0 : ℚ), t.created_at = some t0 → t.expires_in = 3600 →
      t.isExpired (t0 + 3301) = true ∧ t.isExpired (t0 + 3299) = false) := by
  refine ⟨?_, fun t now => rfl, ?_⟩
  · intro t c now hc
    unfold TokenData.isExpired
    rw [hc]
    simp only [decide_eq_false_iff_not, not_le]
  · intro t t0 hc he
    unfold TokenData.isExpired
    rw [hc, he]
    constructor
    · simp only [decide_eq_true_eq]
      norm_num
    · simp only [decide_eq_false_iff_not, not_le]
      norm_num

/-- Witness for C2 at a concrete token created at 0 with
`expires_in = 3600`. -/
theorem C2_token_validity_witness :
    TokenData.isExpired (tokWith "a") (0 + 3301) = true ∧
      TokenData.isExpired (tokWith "a") (0 + 3299) = false :=
  C2_token_validity.2.2 (tokWith "a") 0 rfl rfl

/-- Claim C3 (amended): the VIN validator accepts exactly the strings
whose stripped, uppercased form has length 17 and contains none of
`I`, `O`, `Q`; a 17-character string with surrounding whitespace is
rejected, contrary to the claim's gloss that every 17-character string
without I/O/Q is accepted. -/
theorem C3_vin_amended : ∀ v : String, validateVin v = true ↔
    (vinNorm v).length = 17 ∧ ∀ c ∈ vinNorm v, c ≠ 'I' ∧ c ≠ 'O' ∧ c ≠ 'Q' := by
  intro v
  unfold validateVin
  split
  case isTrue h =>
    subst h
    constructor
    · intro hf
      exact absurd hf (by simp)
    · rintro ⟨hlen, -⟩
      exact absurd hlen (by simp [vinNorm, pyStrip])
  case isFalse h =>
    split
    case isTrue hlen =>
      constructor
      · intro hf
        exact absurd hf (by simp)
      · rintro ⟨hl, -⟩
        exact absurd hl hlen
    case isFalse hlen =>
      split
      case isTrue hioq =>
        constructor
        · intro hf
          exact absurd hf (by simp)
        · rintro ⟨-, hall⟩
          simp only [Bool.or_eq_true, List.any_eq_true, decide_eq_true_eq] at hioq
          rcases hioq with (⟨c, hc, rfl⟩ | ⟨c, hc, rfl⟩) | ⟨c, hc, rfl⟩
          · exact absurd rfl (hall _ hc).1
          · exact absurd rfl (hall _ hc).2.1
          · exact absurd rfl (hall _ hc).2.2
      case isFalse hioq =>
        simp only [true_iff]
        refine ⟨by omega, ?_⟩
        intro c hc
        simp only [Bool.or_eq_true, List.any_eq_true, decide_eq_true_eq] at hioq
        push_neg at hioq
        exact ⟨fun he => hioq.1.1 c hc he, fun he => hioq.1.2 c hc he,
          fun he => hioq.2 c hc he⟩

/-- Counterexample for C3 as stated: a 17-character string containing
none of I/O/Q (it ends in a space) that the validator rejects. -/
theorem C3_vin_counterexample :
    validateVin "ABCDEFGHJKLMNPRS " = false ∧
    "ABCDEFGHJKLMNPRS ".length = 17 ∧
    ∀ c ∈ "ABCDEFGHJKLMNPRS ".data, c ≠ 'I' ∧ c ≠ 'O' ∧ c ≠ 'Q' := by
  decide

/-- Claim C9: `from_dict` after `to_dict` reproduces the token: all
seven fields are equal (for any token that has been through
`__post_init__`, so `created_at` is set), hence `is_expired` agrees at
every instant. -/
theorem C9_roundtrip : ∀ (t : TokenData) (c now : ℚ), t.created_at = some c →
    TokenData.fromDict t.toDict now = t ∧
      ∀ q, (TokenData.fromDict t.toDict now).isExpired q = t.isExpired q := by
  intro t c now hc
  have h : TokenData.fromDict t.toDict now = t := by
    unfold TokenData.fromDict TokenData.toDict mkTokenData
    cases t
    simp only [TokenData.mk.injEq, Option.getD_some]
    simp only at hc
    rw [hc]
    simp
  exact ⟨h, fun q => by rw [h]⟩

/-- Witness for C9 at a concrete token. -/
theorem C9_roundtrip_witness :
    TokenData.fromDict (TokenData.toDict (tokWith "a")) 77 = tokWith "a" :=
  (C9_roundtrip (tokWith "a") 0 77 rfl).1

/-- Claim C10 (amended): `access_token` yields the stored string exactly
when a token is loaded and unexpired; `get_auth_header` yields the
Bearer header exactly when that string is non-`None` AND non-empty
(Python truthiness), else the empty mapping. -/
theorem C10_auth_amended :
    (∀ (m : TokenManager) (now : ℚ) (t : TokenData), m.tokenData = some t →
      t.isExpired now = true → m.accessToken now = none) ∧
    (∀ (m : TokenManager) (now : ℚ) (t : TokenData), m.tokenData = some t →
      t.isExpired now = false → m.accessToken now = some t.access_token) ∧
    (∀ (m : TokenManager) (now : ℚ), m.tokenData = none → m.accessToken now = none) ∧
    (∀ (m : TokenManager) (now : ℚ), m.accessToken now = none → m.getAuthHeader now = []) ∧
    (∀ (m : TokenManager) (now : ℚ) (s : String), m.accessToken now = some s → s ≠ "" →
      m.getAuthHeader now =
        [("Authorization", "Bearer " ++ s), ("Content-Type", "application/json")]) ∧
    (∀ (m : TokenManager) (now : ℚ), m.accessToken now = some "" →
      m.getAuthHeader now = []) := by
  refine ⟨?_, ?_, ?_, ?_, ?_, ?_⟩
  · intro m now t hm he
    unfold TokenManager.accessToken
    rw [hm]
    show (if t.isExpired now = true then none else some t.access_token) = none
    simp [he]
  · intro m now t hm he
    unfold TokenManager.accessToken
    rw [hm]
    show (if t.isExpired now = true then none else some t.access_token) = some t.access_token
    simp [he]
  · intro m now hm
    unfold TokenManager.accessToken
    rw [hm]
  · intro m now ha
    unfold TokenManager.getAuthHeader
    rw [ha]
  · intro m now s ha hs
    unfold TokenManager.getAuthHeader
    rw [ha]
    show (if s = "" then [] else _) = _
    simp [hs]
  · intro m now ha
    unfold TokenManager.getAuthHeader
    rw [ha]
    show (if "" = "" then ([] : List (String × String)) else _) = []
    simp

/-- A freshly created sample token is not expired at time 0. -/
theorem tokWith_isExpired_zero (a : String) : (tokWith a).isExpired 0 = false := by
  unfold tokWith TokenData.isExpired
  show decide ((0 : ℚ) - 0 ≥ ((3600 : ℤ) : ℚ) - 300) = false
  simp only [decide_eq_false_iff_not, not_le]
  norm_num

/-- Witness for C10 (amended) on a loaded, unexpired, non-empty
token. -/
theorem C10_auth_witness :
    TokenManager.getAuthHeader { tokenData := some (tokWith "tok") } 0 =
      [("Authorization", "Bearer " ++ "tok"), ("Content-Type", "application/json")] :=
  C10_auth_amended.2.2.2.2.1 { tokenData := some (tokWith "tok") } 0 "tok"
    (C10_auth_amended.2.1 { tokenData := some (tokWith "tok") } 0 (tokWith "tok") rfl
      (tokWith_isExpired_zero "tok"))
    (by decide)

/-- Counterexample for C10 as stated: with a loaded, unexpired token
whose access string is empty, `access_token` is non-`None` (the empty
string) yet `get_auth_header` is the empty mapping, so the header is
not returned exactly when `access_token` is non-`None`. -/
theorem C10_auth_counterexample :
    TokenManager.accessToken { tokenData := some (tokWith "") } 0 = some "" ∧
      TokenManager.getAuthHeader { tokenData := some (tokWith "") } 0 = [] := by
  have hacc : TokenManager.accessToken { tokenData := some (tokWith "") } 0 = some "" := by
    unfold TokenManager.accessToken
    show (if (tokWith "").isExpired 0 = true then none else some (tokWith "").access_token) =
      some ""
    rw [tokWith_isExpired_zero]
    simp [tokWith]
  refine ⟨hacc, ?_⟩
  unfold TokenManager.getAuthHeader
  rw [hacc]
  simp

/-- Claim C8: a document containing the marker text
`unexpected error has occurred` (case-insensitively) short-circuits
report assembly: the report carries only the VIN and the site error
message, every extracted field stays absent, and `raw_data` stays
empty. -/
theorem C8_site_error : ∀ (vin : String) (d : Doc),
    "unexpected error has occurred".data <:+: lowerCs d.html.data →
    extractReportData vin d = { vin := vin, error := some siteErrorMsg } := by
  intro vin d h
  unfold extractReportData extractReportDataE
  rw [if_pos (by simp only [subCi, subCs_iff]; exact h)]

/-- Witness for C8 on a concrete error page. -/
theorem C8_site_error_witness :
    extractReportData "V" { html := "An Unexpected Error has occurred.", elems := [] } =
      { vin := "V", error := some siteErrorMsg } :=
  C8_site_error "V" { html := "An Unexpected Error has occurred.", elems := [] } (by decide)

/-- Concrete mileage documents from the claim. -/
def docMil1 : Doc := { html := "108,487 Last reported odometer reading", elems := [] }

def docMil2 : Doc := { html := "50 Last reported odometer reading", elems := [] }

/-- Claim C6: the mileage extractor returns a string only when its
comma-stripped form parses to a value strictly between 100 and
1000000; the returned string is the comma-formatted capture, e.g.
`108,487 Last reported odometer reading` yields `108,487` while
`50 Last reported odometer reading` yields nothing. -/
theorem C6_mileage_band :
    (∀ (d : Doc) (s : String), extractMileage d = some s →
      ∃ v, parseNatCs ((s.data).filter (fun c => c ≠ ',')) = some v ∧
        100 < v ∧ v < 1000000) ∧
    extractMileage docMil1 = some "108,487" ∧ extractMileage docMil2 = none := by
  refine ⟨fun d s h => bandOk_val (extractMileage_band h), by decide, by decide⟩

/-- Witness for C6 at the claim's own document. -/
theorem C6_mileage_band_witness :
    extractMileage docMil1 = some "108,487" ∧
      ∃ v, parseNatCs (("108,487".data).filter (fun c => c ≠ ',')) = some v ∧
        100 < v ∧ v < 1000000 :=
  ⟨by decide, C6_mileage_band.1 docMil1 "108,487" (by decide)⟩

/-- Claim C7: if `no accident` occurs anywhere (case-insensitively) the
accident extractor returns 0 regardless of the rest of the document;
otherwise a digit run before `accidents reported` or before the generic
`accident` yields its value; a document with no accident phrase at all
(and no elements) yields nothing.  The full-report variant agrees on the
claim's example inputs. -/
theorem C7_accidents :
    (∀ d : Doc, "no accident".data <:+: lowerCs d.html.data → extractAccidents d = some 0) ∧
    (∀ ds : Cs, ds ≠ [] → (∀ c ∈ ds, c.isDigit = true) →
      extractAccidents { html := String.mk (ds ++ " accidents reported".data), elems := [] } =
          some (digitVal ds) ∧
        extractAccidents { html := String.mk (ds ++ " accident".data), elems := [] } =
          some (digitVal ds)) ∧
    (∀ d : Doc, ¬ ("accident".data <:+: lowerCs d.html.data) → d.elems = [] →
      extractAccidents d = none) ∧
    fullAccidents "No accidents or damage reported" = some 0 ∧
    fullAccidents "3 accidents reported" = some 3 := by
  refine ⟨?_, ?_, fun d h he => extractAccidents_none h he, by decide, by decide⟩
  · intro d h
    have hp : phraseCi ["no", "accident"] d.html.data = true := by
      refine phraseCi_of_sub ["no", "accident"] (by decide) ?_
      rw [show wordsJoin ["no", "accident"] = "no accident".data from by decide]
      exact h
    unfold extractAccidents
    rw [hp]
    rfl
  · intro ds hne hd
    exact ⟨extractAccidents_digits hne hd " accidents reported" (by decide) (by decide)
        (by decide),
      extractAccidents_digits hne hd " accident" (by decide) (by decide) (by decide)⟩

/-- Witness for C7 at the claim's example inputs. -/
theorem C7_accidents_witness :
    extractAccidents { html := "No accidents or damage reported", elems := [] } = some 0 ∧
    extractAccidents { html := String.mk ('3' :: " accidents reported".data), elems := [] } =
      some (digitVal ['3']) ∧
    extractAccidents { html := "hello world", elems := [] } = none :=
  ⟨C7_accidents.1 { html := "No accidents or damage reported", elems := [] } (by decide),
    (C7_accidents.2.1 ['3'] (by decide) (by decide)).1,
    C7_accidents.2.2.1 { html := "hello world", elems := [] } (by decide) rfl⟩

/-- Counterexample for C5 as stated: the flat-variant title extractor
returns nothing — not `Clean` — on a document containing only
`Guaranteed No Problem`, since it only knows the six literal keywords
(`clean title`, `salvage`, …). -/
theorem C5_title_counterexample :
    extractTitleStatus { html := "Guaranteed No Problem", elems := [] } = none ∧
      (none : Option String) ≠ some "Clean" := by
  constructor
  · decide
  · decide

/-- Claim C5 (amended): the flat variant classifies by the first
matching keyword among `clean title` → Clean, `salvage` → Salvage,
`rebuilt` → Rebuilt, `flood`, `lemon`, `junk`, else `None`; it has no
`Guaranteed No Problem` or generic no-problem rule, so that phrase alone
yields `None` there.  The full variant maps `Guaranteed No Problem` (and
`title…clean`, salvage/rebuilt near `title`, then a generic
`No [Issues] Problem/Reported`) in priority order and yields `Unknown`
when nothing matches. -/
theorem C5_title_amended :
    (∀ d : Doc, "clean title".data <:+: lowerCs d.html.data →
      extractTitleStatus d = some "Clean") ∧
    (∀ d : Doc, "salvage".data <:+: lowerCs d.html.data →
      ¬ ("clean title".data <:+: lowerCs d.html.data) →
      extractTitleStatus d = some "Salvage") ∧
    (∀ html : String, "guaranteed no problem".data <:+: lowerCs html.data →
      fullTitleStatus html = "Clean") ∧
    fullTitleStatus "salvage title" = "Salvage" ∧
    fullTitleStatus "hello world" = "Unknown" ∧
    extractTitleStatus { html := "hello world", elems := [] } = none ∧
    extractTitleStatus { html := "Guaranteed No Problem", elems := [] } = none := by
  refine ⟨?_, ?_, ?_, by decide, by decide, by decide, by decide⟩
  · intro d h
    unfold extractTitleStatus
    rw [if_pos (subCs_iff.mpr h)]
  · intro d h hnot
    unfold extractTitleStatus
    rw [if_neg (by simp only [subCs_iff]; exact hnot), if_pos (subCs_iff.mpr h)]
  · intro html h
    have hp : phraseCi ["guaranteed", "no", "problem"] html.data = true := by
      refine phraseCi_of_sub ["guaranteed", "no", "problem"] (by decide) ?_
      rw [show wordsJoin ["guaranteed", "no", "problem"] = "guaranteed no problem".data from
        by decide]
      exact h
    unfold fullTitleStatus
    rw [hp]
    rfl

/-- Witness for C5 (amended) at concrete documents. -/
theorem C5_title_witness :
    extractTitleStatus { html := "clean title", elems := [] } = some "Clean" ∧
    extractTitleStatus { html := "salvage vehicle", elems := [] } = some "Salvage" ∧
    fullTitleStatus "Guaranteed No Problem" = "Clean" :=
  ⟨C5_title_amended.1 { html := "clean title", elems := [] } (by decide),
    C5_title_amended.2.1 { html := "salvage vehicle", elems := [] } (by decide) (by decide),
    C5_title_amended.2.2.1 "Guaranteed No Problem" (by decide)⟩

/-- Counterexample for C4 as stated: the whole extractor sequence sits
in one `try`, so when the accident extractor raises, the mileage
extractor never runs — its field stays absent even though the document
carries a mileage the extractor would have found. -/
theorem C4_extractor_error_counterexample :
    extractMileage { html := "108,487 Last reported odometer reading", elems := [] } =
      some "108,487" ∧
    (extractReportDataE (fun d => .ok (extractYearMakeModel d))
        (fun d => .ok (extractOwners d)) (fun _ => .error "boom")
        (fun d => .ok (extractServiceRecords d)) (fun d => .ok (extractMileage d))
        (fun d => .ok (extractTitleStatus d)) (fun d => .ok (extractAdditionalData d)) "V"
        { html := "108,487 Last reported odometer reading", elems := [] }).mileage = none := by
  constructor
  · decide
  · decide

/-- The report produced when the accident extractor raises `e` after
`_extract_year_make_model` returned `y` and `_extract_owners` returned
`o`: the earlier fields are kept, the later ones still hold their
defaults, and the caught exception is recorded once. -/
def reportStopped (vin : String) (y : Option YMM) (o : Option Nat) (e : String) :
    VehicleReport :=
  { applyYMM { vin := vin } y with owners := o, error := some (extractionErrorMsg e) }

/-- Claim C4 (amended): an exception from one extractor is caught and
recorded exactly once in `error`; the fields set by extractors that ran
before it are kept, but the extractors after it do not run, so their
fields stay absent.  Stated here for a failure of the accident
extractor, over arbitrary extractor functions. -/
theorem C4_extractor_error_amended :
    ∀ (fymm : Ext (Option YMM)) (fown facc fsvc : Ext (Option Nat))
      (fmil ftit : Ext (Option String)) (fraw : Ext (List (String × String)))
      (vin : String) (d : Doc) (y : Option YMM) (o : Option Nat) (e : String),
      subCi "unexpected error has occurred" d.html.data = false →
      fymm d = .ok y → fown d = .ok o → facc d = .error e →
      extractReportDataE fymm fown facc fsvc fmil ftit fraw vin d =
        reportStopped vin y o e := by
  intro fymm fown facc fsvc fmil ftit fraw vin d y o e hmark hymm hown hacc
  unfold extractReportDataE reportStopped
  rw [if_neg (by simp [hmark]), hymm, hown, hacc]

/-- Witness for C4 (amended) with concrete extractors. -/
theorem C4_extractor_error_witness :
    extractReportDataE (fun _ => .ok (some { year := some "2008", make := some "BMW" }))
        (fun _ => .ok (some 2)) (fun _ => .error "boom") (fun _ => .ok none)
        (fun _ => .ok none) (fun _ => .ok none) (fun _ => .ok []) "V"
        { html := "irrelevant", elems := [] } =
      { vin := "V", year := some "2008", make := some "BMW", owners := some 2,
        error := some (extractionErrorMsg "boom") } :=
  C4_extractor_error_amended (fun _ => .ok (some { year := some "2008", make := some "BMW" }))
    (fun _ => .ok (some 2)) (fun _ => .error "boom") (fun _ => .ok none)
    (fun _ => .ok none) (fun _ => .ok none) (fun _ => .ok []) "V"
    { html := "irrelevant", elems := [] } (some { year := some "2008", make := some "BMW" })
    (some 2) "boom" (by decide) rfl rfl rfl

/-- The end-to-end document of claim C1 (its text, with the ellipses as
literal separators; no elements). -/
def docC1 : Doc :=
  { html := "2008 BMW 3 SERIES 328XI ... 2 Previous owners ... No accidents or damage reported ... 108,487 Last reported odometer reading ... Guaranteed No Problem", elems := [] }

set_option maxRecDepth 1000000 in
/-- Counterexample for C1 as stated: on the claim's document the
assembled report does not carry `title_status = Clean` (the flat title
extractor knows no `Guaranteed No Problem` rule) and its trim is
`SERIES`, not `SERIES 328XI` (the make-anchored pattern captures at
most two words after the make). -/
theorem C1_end_to_end_counterexample :
    (extractReportData "WBAVC73588KX12345" docC1).title_status ≠ some "Clean" ∧
      (extractReportData "WBAVC73588KX12345" docC1).trim ≠ some "SERIES 328XI" := by
  constructor
  · decide
  · decide

set_option maxRecDepth 1000000 in
/-- Claim C1 (amended): on the claim's document the assembled report has
year 2008, make BMW, model 3, trim `SERIES`, owners 2, accidents 0,
mileage `108,487`, no service records, no title status, empty raw data
and no error. -/
theorem C1_end_to_end_amended :
    extractReportData "WBAVC73588KX12345" docC1 =
      { vin := "WBAVC73588KX12345", year := some "2008", make := some "BMW",
        model := some "3", trim := some "SERIES", owners := some 2, accidents := some 0,
        service_records := none, mileage := some "108,487", title_status := none,
        rawData := [], error := none } := by
  decide

end Carfax
